import Mathlib

/-!
Verification development for the resilient LLM extraction pipeline of the
insights-tracker repository (`server/services/ai_engine.py`).

The Python source is shallowly embedded:
* pure string manipulation (JSON candidate extraction, truncation repair,
  date formatting, Python `str` helpers) becomes Lean functions on
  `List Char` / `String`;
* `json.loads` becomes a fuel-bounded recursive-descent JSON parser
  returning `Option JVal` (NaN/Infinity literals and surrogate pairing are
  not modelled; none of the analysed inputs use them);
* the Databricks model endpoint and the `dateutil` date parser are external
  collaborators and are modelled as oracle functions supplied as arguments;
* the md5 cache key over `f"{prompt}_{max_tokens}"` is modelled by the pair
  `(prompt, max_tokens)` itself (the formatted string is injective in the
  pair because the decimal suffix contains no underscore; md5 is treated as
  collision-free);
* `async` methods become pure state-passing functions; `asyncio.sleep`
  delays are recorded in an explicit trace of delays (in seconds);
* mutable engine attributes (`_cache`, `available_endpoints`,
  `consecutive_failures`, `llm_available`) become an explicit `EngineState`
  record threaded through `queryModel`.
-/

namespace InsightsTracker

/-! ### Characters and Python string helpers -/

def quoteC : Char := Char.ofNat 34

def backslashC : Char := Char.ofNat 92

def lbraceC : Char := Char.ofNat 123

def rbraceC : Char := Char.ofNat 125

def lbrackC : Char := Char.ofNat 91

def rbrackC : Char := Char.ofNat 93

def nlC : Char := Char.ofNat 10

/-- Python `str` whitespace (`str.strip` / `str.split()` default set,
ASCII part). -/
def isPyWs (c : Char) : Bool :=
  c == ' ' || c == Char.ofNat 9 || c == nlC || c == Char.ofNat 13 ||
    c == Char.ofNat 11 || c == Char.ofNat 12

/-- `needle` is a prefix of `hay` (character lists). -/
def startsList : List Char → List Char → Bool
  | [], _ => true
  | _ :: _, [] => false
  | a :: as, b :: bs => a == b && startsList as bs

/-- Python `needle in hay` substring test, on character lists. -/
def hasSubL (needle : List Char) : List Char → Bool
  | [] => startsList needle []
  | c :: rest => startsList needle (c :: rest) || hasSubL needle rest

/-- Python `needle in hay` substring test on strings. -/
def hasSub (needle hay : String) : Bool :=
  hasSubL needle.toList hay.toList

/-- Index of the first occurrence of `needle` in `hay`, if any. -/
def findSubIdx (needle : List Char) : List Char → Option Nat
  | [] => if startsList needle [] then some 0 else none
  | c :: rest =>
    if startsList needle (c :: rest) then some 0
    else (findSubIdx needle rest).map (· + 1)

/-- Python `s.strip()` on a character list. -/
def pyStripL (cs : List Char) : List Char :=
  ((cs.dropWhile isPyWs).reverse.dropWhile isPyWs).reverse

def pyStrip (s : String) : String :=
  ⟨pyStripL s.toList⟩

/-- Python `s.rstrip()` on a character list. -/
def pyRstripL (cs : List Char) : List Char :=
  (cs.reverse.dropWhile isPyWs).reverse

/-- Python `s.rstrip(',')` on a character list: strips every trailing comma. -/
def pyRstripCommaL (cs : List Char) : List Char :=
  (cs.reverse.dropWhile (· == ',')).reverse

/-- Python `s.count(ch)` for a single character. -/
def countC (ch : Char) (cs : List Char) : Nat :=
  cs.countP (· == ch)

/-- Python `s.split(ch)` for a single-character separator: splits at every
occurrence, keeping empty parts. -/
def splitOnC (ch : Char) : List Char → List (List Char)
  | [] => [[]]
  | c :: rest =>
    let r := splitOnC ch rest
    if c == ch then [] :: r
    else
      match r with
      | [] => [[c]]
      | h :: t => (c :: h) :: t

/-- Join character-list lines with a separator character
(Python `ch.join(parts)`). -/
def joinWithC (ch : Char) : List (List Char) → List Char
  | [] => []
  | [l] => l
  | l :: rest => l ++ ch :: joinWithC ch rest

/-- Python `s.split(sep)` for a separator `s0 :: srest`
(Python forbids an empty separator).  Fuel-based so that the kernel can
evaluate it; each step consumes at least one character, so fuel
`cs.length` suffices. -/
def pySplitNE (s0 : Char) (srest : List Char) : Nat → List Char → List (List Char)
  | _, [] => [[]]
  | 0, cs => [cs]
  | fuel + 1, c :: rest =>
    if startsList (s0 :: srest) (c :: rest) then
      match pySplitNE s0 srest fuel (rest.drop srest.length) with
      | [] => [[], []]
      | parts => [] :: parts
    else
      match pySplitNE s0 srest fuel rest with
      | [] => [[c]]
      | h :: t => (c :: h) :: t

/-- Python `s.split(sep)` on strings; returns the parts as strings. -/
def pySplit (sep s : String) : List String :=
  match sep.toList with
  | [] => [s]
  | s0 :: srest => (pySplitNE s0 srest s.toList.length s.toList).map (⟨·⟩)

/-- One step of Python whitespace `s.split()`: `acc` is the reversed
current token. -/
def pySplitWsAux : List Char → List Char → List (List Char)
  | acc, [] => if acc.isEmpty then [] else [acc.reverse]
  | acc, c :: rest =>
    if isPyWs c then
      if acc.isEmpty then pySplitWsAux [] rest
      else acc.reverse :: pySplitWsAux [] rest
    else pySplitWsAux (c :: acc) rest

/-- Python whitespace `s.split()` (no argument): whitespace runs separate
tokens, no empty tokens. -/
def pySplitWs (cs : List Char) : List (List Char) :=
  pySplitWsAux [] cs

/-! ### JSON values and a model of `json.loads` -/

/-- Parsed JSON values.  Numbers are represented exactly as rationals. -/
inductive JVal where
  | jnull
  | jbool (b : Bool)
  | jnum (q : Rat)
  | jstr (s : String)
  | jarr (xs : List JVal)
  | jobj (fs : List (String × JVal))

/-- JSON whitespace accepted between tokens by `json.loads`. -/
def isJsonWs (c : Char) : Bool :=
  c == ' ' || c == Char.ofNat 9 || c == nlC || c == Char.ofNat 13

def isDigitC (c : Char) : Bool :=
  '0' ≤ c && c ≤ '9'

def hexVal (c : Char) : Option Nat :=
  if isDigitC c then some (c.toNat - 48)
  else if 'a' ≤ c && c ≤ 'f' then some (c.toNat - 87)
  else if 'A' ≤ c && c ≤ 'F' then some (c.toNat - 70)
  else none

def parseHex4 : List Char → Option (Nat × List Char)
  | a :: b :: c :: d :: rest =>
    match hexVal a, hexVal b, hexVal c, hexVal d with
    | some x, some y, some z, some w => some (((x * 16 + y) * 16 + z) * 16 + w, rest)
    | _, _, _, _ => none
  | _ => none

/-- Characters of a JSON string body (after the opening quote), with the
standard escapes; raw control characters are rejected as `json.loads`
does in strict mode.  Unpaired surrogates from a lone `\uXXXX` are not
modelled (Lean `Char.ofNat` maps them to `'\0'`). -/
def jstrChars : Nat → List Char → Option (List Char × List Char)
  | 0, _ => none
  | _ + 1, [] => none
  | fuel + 1, c :: rest =>
    if c == quoteC then some ([], rest)
    else if c == backslashC then
      match rest with
      | [] => none
      | e :: rest2 =>
        let cont := fun (ch : Char) (tl : List Char) =>
          (jstrChars fuel tl).map (fun p => (ch :: p.1, p.2))
        if e == quoteC then cont quoteC rest2
        else if e == backslashC then cont backslashC rest2
        else if e == '/' then cont '/' rest2
        else if e == 'b' then cont (Char.ofNat 8) rest2
        else if e == 'f' then cont (Char.ofNat 12) rest2
        else if e == 'n' then cont nlC rest2
        else if e == 'r' then cont (Char.ofNat 13) rest2
        else if e == 't' then cont (Char.ofNat 9) rest2
        else if e == 'u' then
          match parseHex4 rest2 with
          | none => none
          | some (n, rest3) => cont (Char.ofNat n) rest3
        else none
    else if c.toNat < 32 then none
    else (jstrChars fuel rest).map (fun p => (c :: p.1, p.2))

def takeDigits (cs : List Char) : List Char × List Char :=
  (cs.takeWhile isDigitC, cs.dropWhile isDigitC)

def digitsToNat (ds : List Char) : Nat :=
  ds.foldl (fun a c => a * 10 + (c.toNat - 48)) 0

/-- JSON number grammar: `-? (0 | [1-9][0-9]*) ('.' [0-9]+)? ([eE][+-]?[0-9]+)?`.
`NaN`/`Infinity` extensions of `json.loads` are not modelled. -/
def jparseNum (cs : List Char) : Option (Rat × List Char) :=
  let (neg, cs1) :=
    match cs with
    | c :: r => if c == '-' then (true, r) else (false, cs)
    | [] => (false, cs)
  let (ip, cs2) := takeDigits cs1
  if ip.isEmpty then none
  else if ip.length > 1 && ip.headD '0' == '0' then none
  else
    let (fp, cs3) :=
      match cs2 with
      | c :: r =>
        if c == '.' then takeDigits r
        else ([], cs2)
      | [] => ([], cs2)
    if cs2.headD ' ' == '.' && fp.isEmpty then none
    else
      let hasExp := cs3.headD ' ' == 'e' || cs3.headD ' ' == 'E'
      let (epos, cs4) :=
        match cs3 with
        | _ :: r =>
          if hasExp then
            match r with
            | s :: r2 =>
              if s == '-' then (false, r2)
              else if s == '+' then (true, r2)
              else (true, r)
            | [] => (true, r)
          else (true, cs3)
        | [] => (true, cs3)
      let (ep, cs5) := if hasExp then takeDigits cs4 else ([], cs3)
      if hasExp && ep.isEmpty then none
      else
        let n0 : Nat := digitsToNat (ip ++ fp)
        let e : Nat := digitsToNat ep
        let num : Nat := if epos then n0 * 10 ^ e else n0
        let den : Nat := if epos then 10 ^ fp.length else 10 ^ fp.length * 10 ^ e
        let q : Rat := mkRat (if neg then -(num : Int) else (num : Int)) den
        some (q, cs5)

/-- Python `dict` assignment: an existing key keeps its position and gets the
new value; a new key is appended.  `json.loads` uses this per parsed object
field, so duplicate keys in the source resolve to the last value. -/
def dictSetJ : List (String × JVal) → String → JVal → List (String × JVal)
  | [], k, v => [(k, v)]
  | (k', v') :: rest, k, v =>
    if k' == k then (k, v) :: rest else (k', v') :: dictSetJ rest k v

mutual

/-- Recursive-descent JSON value parser (the model of `json.loads`,
modulo the documented omissions). -/
def jparseVal : Nat → List Char → Option (JVal × List Char)
  | 0, _ => none
  | fuel + 1, cs0 =>
    match cs0.dropWhile isJsonWs with
    | [] => none
    | c :: rest =>
      if c == quoteC then
        (jstrChars (rest.length + 1) rest).map (fun p => (JVal.jstr ⟨p.1⟩, p.2))
      else if c == lbraceC then jparseObj fuel rest
      else if c == lbrackC then jparseArr fuel rest
      else if c == 't' then
        if startsList ['r', 'u', 'e'] rest then some (.jbool true, rest.drop 3) else none
      else if c == 'f' then
        if startsList ['a', 'l', 's', 'e'] rest then some (.jbool false, rest.drop 4) else none
      else if c == 'n' then
        if startsList ['u', 'l', 'l'] rest then some (.jnull, rest.drop 3) else none
      else
        (jparseNum (c :: rest)).map (fun p => (JVal.jnum p.1, p.2))

/-- Array body, right after `[`. -/
def jparseArr : Nat → List Char → Option (JVal × List Char)
  | 0, _ => none
  | fuel + 1, cs =>
    match cs.dropWhile isJsonWs with
    | [] => none
    | c :: rest =>
      if c == rbrackC then some (.jarr [], rest)
      else jparseElems fuel (c :: rest) []

def jparseElems : Nat → List Char → List JVal → Option (JVal × List Char)
  | 0, _, _ => none
  | fuel + 1, cs, acc =>
    match jparseVal fuel cs with
    | none => none
    | some (v, rest) =>
      match rest.dropWhile isJsonWs with
      | [] => none
      | c :: r2 =>
        if c == ',' then jparseElems fuel r2 (v :: acc)
        else if c == rbrackC then some (.jarr (v :: acc).reverse, r2)
        else none

/-- Object body, right after `{`. -/
def jparseObj : Nat → List Char → Option (JVal × List Char)
  | 0, _ => none
  | fuel + 1, cs =>
    match cs.dropWhile isJsonWs with
    | [] => none
    | c :: rest =>
      if c == rbraceC then some (.jobj [], rest)
      else jparseFields fuel (c :: rest) []

def jparseFields :
    Nat → List Char → List (String × JVal) → Option (JVal × List Char)
  | 0, _, _ => none
  | fuel + 1, cs, acc =>
    match cs.dropWhile isJsonWs with
    | [] => none
    | c :: rest =>
      if c == quoteC then
        match jstrChars (rest.length + 1) rest with
        | none => none
        | some (k, r1) =>
          match r1.dropWhile isJsonWs with
          | [] => none
          | col :: r2 =>
            if col == ':' then
              match jparseVal fuel r2 with
              | none => none
              | some (v, r3) =>
                match r3.dropWhile isJsonWs with
                | [] => none
                | d :: r4 =>
                  if d == ',' then jparseFields fuel r4 (dictSetJ acc ⟨k⟩ v)
                  else if d == rbraceC then some (.jobj (dictSetJ acc ⟨k⟩ v), r4)
                  else none
            else none
      else none

end

/-- The model of `json.loads`: parse one value and require only whitespace
after it. -/
def jloads (s : String) : Option JVal :=
  let cs := s.toList
  match jparseVal (2 * cs.length + 8) cs with
  | none => none
  | some (v, rest) => if (rest.dropWhile isJsonWs).isEmpty then some v else none

/-! ### Python-semantics helpers on JSON values -/

/-- Python truthiness of a parsed JSON value. -/
def jTruthy : JVal → Bool
  | .jnull => false
  | .jbool b => b
  | .jnum q => decide (q ≠ 0)
  | .jstr s => s != ""
  | .jarr xs => !xs.isEmpty
  | .jobj fs => !fs.isEmpty

def jlookup : List (String × JVal) → String → Option JVal
  | [], _ => none
  | (k', v) :: rest, k => if k' == k then some v else jlookup rest k

/-- Python `d.get(k, dflt)`: the stored value (even `null`) if the key is
present, else the default. -/
def jgetD (fs : List (String × JVal)) (k : String) (dflt : JVal) : JVal :=
  (jlookup fs k).getD dflt

/-- Python `d.get(k)` where the caller treats the result as `Optional`:
a missing key and a stored JSON `null` both become Python `None`. -/
def jgetPy (fs : List (String × JVal)) (k : String) : Option JVal :=
  match jlookup fs k with
  | some .jnull => none
  | o => o

/-- Python `len(v)`; `none` models the `TypeError` raised on an
unsized value. -/
def pyLen : JVal → Option Nat
  | .jstr s => some s.length
  | .jarr xs => some xs.length
  | .jobj fs => some fs.length
  | _ => none

/-- Python `v[0]`; `none` models the exception raised when `v` is not
indexable by 0. -/
def pyIndex0 : JVal → Option JVal
  | .jarr xs => xs.head?
  | .jstr s =>
    match s.toList with
    | [] => none
    | c :: _ => some (.jstr ⟨[c]⟩)
  | _ => none

/-! ### Data model (`server/models`) -/

inductive CategoryValueType where
  | predefined
  | inferred
  deriving DecidableEq, Repr

/-- `CategoryDefinition` from `schema_models.py` (pydantic fields). -/
structure CategoryDefinition where
  name : String
  description : Option String
  value_type : CategoryValueType
  possible_values : Option (List String)
  deriving DecidableEq, Repr

/-- `SchemaTemplate` from `schema_models.py`.  Only `categories` is read by
the extraction engine; the template metadata fields (id, name, owner,
timestamps) never reach it and are omitted. -/
structure SchemaTemplate where
  categories : List CategoryDefinition
  deriving DecidableEq, Repr

/-- `CategoryResult` from `document_models.py`.  `confidence` is an exact
rational standing for the Python float. -/
structure CategoryResult where
  category_name : String
  values : List String
  confidence : Rat
  evidence_text : List String
  model_used : String
  error : Option String
  deriving DecidableEq, Repr

/-- pydantic validation of a `List[str]` field: accepts exactly a JSON
array whose elements are all strings (pydantic v2 performs no
element coercion). -/
def toStrList : JVal → Option (List String)
  | .jarr xs =>
    xs.mapM (fun v =>
      match v with
      | .jstr s => some s
      | _ => none)
  | _ => none

/-- Model of Python `float(s)` for pydantic's lax numeric-string
coercion: optional sign, digits with optional fraction and exponent,
surrounding whitespace allowed (`inf`/`nan` spellings not modelled). -/
def pyFloatParse (s : String) : Option Rat :=
  let cs := pyStripL s.toList
  let (neg, cs1) :=
    match cs with
    | c :: r =>
      if c == '-' then (true, r) else if c == '+' then (false, r) else (false, cs)
    | [] => (false, cs)
  let (ip, cs2) := takeDigits cs1
  let (fp, cs3) :=
    match cs2 with
    | c :: r => if c == '.' then takeDigits r else ([], cs2)
    | [] => ([], cs2)
  if ip.isEmpty && fp.isEmpty then none
  else
    let hasExp := cs3.headD ' ' == 'e' || cs3.headD ' ' == 'E'
    let (epos, cs4) :=
      match cs3 with
      | _ :: r =>
        if hasExp then
          match r with
          | s :: r2 =>
            if s == '-' then (false, r2)
            else if s == '+' then (true, r2)
            else (true, r)
          | [] => (true, r)
        else (true, cs3)
      | [] => (true, cs3)
    let (ep, cs5) := if hasExp then takeDigits cs4 else ([], cs3)
    if hasExp && ep.isEmpty then none
    else if !cs5.isEmpty then none
    else
      let n0 : Nat := digitsToNat (ip ++ fp)
      let e : Nat := digitsToNat ep
      let num : Nat := if epos then n0 * 10 ^ e else n0
      let den : Nat := if epos then 10 ^ fp.length else 10 ^ fp.length * 10 ^ e
      some (mkRat (if neg then -(num : Int) else (num : Int)) den)

/-- pydantic validation of a `float` field: a JSON number, or a numeric
string (lax coercion); booleans, null, containers are rejected. -/
def toFloatPy : JVal → Option Rat
  | .jnum q => some q
  | .jstr s => pyFloatParse s
  | _ => none

/-! ### JSON candidate extraction and truncation repair
(`ai_engine.py`, the shared parsing region of
`_process_predefined_category` / `_process_inferred_category` and of
`_extract_customer_info`) -/

/-- `response.split('```json')[1].split('```')[0].strip()`. -/
def extractFenced (response : String) : String :=
  pyStrip ((pySplit "```" ((pySplit "```json" response).getD 1 "")).headD "")

/-- The brace-balancing scan: starting from the first `{`, walk forward
keeping a depth counter; return the length of the span ending where the
depth first returns to zero, or `none` if it never does. -/
def braceSpan : List Char → Int → Nat → Option Nat
  | [], _, _ => none
  | c :: rest, count, idx =>
    if c == lbraceC then braceSpan rest (count + 1) (idx + 1)
    else if c == rbraceC then
      if count - 1 == 0 then some (idx + 1)
      else braceSpan rest (count - 1) (idx + 1)
    else braceSpan rest count (idx + 1)

/-- Per-line unterminated-string fix of the category-extraction truncation
repair: a line with an odd number of quote characters is replaced by its
stripped form with the string closed (before a trailing comma if any);
other lines are left untouched. -/
def fixLine (line : List Char) : List Char :=
  let s := pyStripL line
  if countC quoteC s % 2 == 1 then
    if (match s.reverse with
        | c :: _ => c == ','
        | [] => false) then
      s.dropLast ++ [quoteC]
    else s ++ [quoteC]
  else line

/-- Category-extraction truncation repair: fix unterminated strings per
line, strip trailing whitespace and commas, then pad closing `]` and `}`
to balance the observed counts. -/
def categoryRepair (jsonText : List Char) : List Char :=
  let t := joinWithC nlC ((splitOnC nlC jsonText).map fixLine)
  let t := pyRstripCommaL (pyRstripL t)
  let t :=
    if countC lbrackC t > countC rbrackC t then
      t ++ List.replicate (countC lbrackC t - countC rbrackC t) rbrackC
    else t
  let t :=
    if countC lbraceC t > countC rbraceC t then
      t ++ List.replicate (countC lbraceC t - countC rbraceC t) rbraceC
    else t
  t

/-- Customer-extraction truncation repair: only the closing-brace padding. -/
def customerRepair (jsonText : List Char) : List Char :=
  if countC lbraceC jsonText > countC rbraceC jsonText then
    jsonText ++ List.replicate (countC lbraceC jsonText - countC rbraceC jsonText) rbraceC
  else jsonText

/-- JSON candidate extraction shared by both extractors, parameterized by
the truncation repair used: fenced block if present, else balanced-brace
span, else the repaired tail from the first `{`; `none` models the
`ValueError` raised when no `{` is found. -/
def extractCandidate (repair : List Char → List Char) (response : String) : Option String :=
  if hasSub "```json" response then some (extractFenced response)
  else
    let cs := response.toList
    match findSubIdx [lbraceC] cs with
    | none => none
    | some start =>
      let tail := cs.drop start
      match braceSpan tail 0 0 with
      | some n => some (pyStrip ⟨tail.take n⟩)
      | none => some ⟨repair (pyStripL tail)⟩

/-! ### Category extraction (`_process_predefined_category`,
`_process_inferred_category`, `_process_category`) -/

def errMsgExtraction : String :=
  "LLM extraction failed - no response or parsing error"

/-- The `CategoryResult` returned when the LLM response is missing or not
parseable (both source methods return this identical record). -/
def errorResult (catName : String) : CategoryResult :=
  ⟨catName, [], 0, [], "none", some errMsgExtraction⟩

/-- The category-independent portion of the response handling in
`_process_predefined_category` / `_process_inferred_category` (the two
method bodies are line-for-line identical here, differing only in log
strings): empty-response guard, JSON candidate extraction, `json.loads`,
the `values` normalization (`[]` or a single falsy element become `[]`),
and construction of the validated field values.  `none` models every
caught exception, which the caller maps to `errorResult`. -/
def parseValuesConfEv (response : String) : Option (List String × Rat × List String) :=
  if response == "" then none
  else if pyStrip response == "" then none
  else
    match extractCandidate categoryRepair response with
    | none => none
    | some jsonText =>
      match jloads jsonText with
      | none => none
      | some (.jobj fs) =>
        let ev := jgetD fs "values" (.jarr [])
        let norm : Option JVal :=
          if !jTruthy ev then some (.jarr [])
          else
            match pyLen ev with
            | none => none
            | some n =>
              if n == 1 then
                match pyIndex0 ev with
                | none => none
                | some v0 => if !jTruthy v0 then some (.jarr []) else some ev
              else some ev
        match norm with
        | none => none
        | some ev' =>
          match toStrList ev',
              toFloatPy (jgetD fs "confidence" (.jnum (mkRat 1 2))),
              toStrList (jgetD fs "evidence" (.jarr [])) with
          | some vs, some cf, some evid => some (vs, cf, evid)
          | _, _, _ => none
      | some _ => none

/-- Result of one category-extraction response: the parsed record on
success, `errorResult` on any failure. -/
def parseCategoryResponse (modelEndpoint : String) (cat : CategoryDefinition)
    (response : String) : CategoryResult :=
  match parseValuesConfEv response with
  | some (vs, cf, evid) => ⟨cat.name, vs, cf, evid, modelEndpoint, none⟩
  | none => errorResult cat.name

/-- One prompt-and-parse cycle of `_process_predefined_category` /
`_process_inferred_category`, given the gateway's response for the built
prompt (`none` = gateway returned `None`).  The prompt text itself is not
modelled: no analysed claim depends on its content, and the oracle in
`processCategory` maps call indices directly to responses. -/
def processAttempt (resp : Option String) (modelEndpoint : String)
    (cat : CategoryDefinition) : CategoryResult :=
  match cat.value_type with
  | .predefined =>
    match resp with
    | none => errorResult cat.name
    | some r => parseCategoryResponse modelEndpoint cat r
  | .inferred =>
    match resp with
    | none => errorResult cat.name
    | some r => parseCategoryResponse modelEndpoint cat r

/-- `_process_category`: one attempt; if its `values` list is empty, sleep
1 second and run exactly one more attempt, returning the second result.
`resp` maps the index of each gateway call made during the analysis to its
response; the returned `Nat` is the next free call index and the
`List Nat` records the sleeps (in seconds). -/
def processCategory (resp : Nat → Option String) (n : Nat) (modelEndpoint : String)
    (cat : CategoryDefinition) : CategoryResult × Nat × List Nat :=
  let r0 := processAttempt (resp n) modelEndpoint cat
  if !r0.values.isEmpty then (r0, n + 1, [])
  else
    let r1 := processAttempt (resp (n + 1)) modelEndpoint cat
    (r1, n + 2, [1])

/-! ### Customer/date extraction: LLM path (`_extract_customer_info`) -/

/-- Parsing of a (non-empty) LLM response by `_extract_customer_info`:
fenced/balanced/truncation-repaired JSON candidate, `json.loads`, then
`data.get('customer_name')` / `data.get('meeting_date')` returned verbatim.
Every caught exception yields `(None, None)`. -/
def parseCustomerLLM (response : String) : Option JVal × Option JVal :=
  match extractCandidate customerRepair response with
  | none => (none, none)
  | some jsonText =>
    match jloads jsonText with
    | none => (none, none)
    | some (.jobj fs) => (jgetPy fs "customer_name", jgetPy fs "meeting_date")
    | some _ => (none, none)

/-! ### Date normalizer (`_parse_and_format_date`) -/

def zfill2 (ds : List Char) : List Char :=
  if ds.length < 2 then List.replicate (2 - ds.length) '0' ++ ds else ds

/-- Split `cleaned` as `digits sep digits sep digits` exactly (anchored on
both sides).  Because a digit run cannot contain the separator, this is
equivalent to the anchored regexes of `_parse_and_format_date` once the
run lengths are checked by the caller. -/
def splitDate3 (sep : Char) (cs : List Char) : Option (List Char × List Char × List Char) :=
  let (g1, r1) := takeDigits cs
  match r1 with
  | c1 :: r2 =>
    if c1 == sep then
      let (g2, r3) := takeDigits r2
      match r3 with
      | c2 :: r4 =>
        if c2 == sep then
          let (g3, r5) := takeDigits r4
          if r5.isEmpty then some (g1, g2, g3) else none
        else none
      | [] => none
    else none
  | [] => none

def fmtYMD (y m d : List Char) : String :=
  ⟨y ++ '-' :: (zfill2 m ++ '-' :: zfill2 d)⟩

def len12 (g : List Char) : Bool :=
  1 ≤ g.length && g.length ≤ 2

/-- The four anchored manual patterns of `_parse_and_format_date`, in
source order: `M/D/YYYY`, `M-D-YYYY`, `YYYY/M/D`, `YYYY-M-D`, each
formatted as `YYYY-MM-DD` with zero-padded month/day. -/
def manualDateFormat (cleaned : List Char) : Option String :=
  let mdy := fun (sep : Char) =>
    match splitDate3 sep cleaned with
    | some (a, b, c) =>
      if len12 a && len12 b && c.length == 4 then some (fmtYMD c a b) else none
    | none => none
  let ymd := fun (sep : Char) =>
    match splitDate3 sep cleaned with
    | some (a, b, c) =>
      if a.length == 4 && len12 b && len12 c then some (fmtYMD a b c) else none
    | none => none
  (mdy '/').orElse fun _ => (mdy '-').orElse fun _ => (ymd '/').orElse fun _ => ymd '-'

def datePrefixes : List String :=
  ["Date:", "Meeting date:", "On", "Meeting on"]

/-- The sequential prefix stripping of `_parse_and_format_date` (checked
case-insensitively, stripped by original prefix length). -/
def stripDatePrefixes (cleaned : List Char) : List Char :=
  datePrefixes.foldl
    (fun cur p =>
      if startsList (p.toList.map Char.toLower) (cur.map Char.toLower) then
        pyStripL (cur.drop p.length)
      else cur)
    cleaned

/-- The month-name list guarding the `dateutil` branch (checked
case-sensitively with Python `in`). -/
def monthNames : List String :=
  ["January", "February", "March", "April", "May", "June",
   "July", "August", "September", "October", "November", "December",
   "Jan", "Feb", "Mar", "Apr", "May", "Jun", "Jul", "Aug", "Sep", "Oct",
   "Nov", "Dec"]

/-- `_parse_and_format_date`.  The external `dateutil` parser composed
with `strftime('%Y-%m-%d')` is an external collaborator, modelled by the
oracle `du` (`none` = it raised). -/
def parseAndFormatDate (du : String → Option String) (dateStr : String) : Option String :=
  if dateStr == "" then none
  else
    let cleaned := stripDatePrefixes (pyStripL dateStr.toList)
    match manualDateFormat cleaned with
    | some r => some r
    | none =>
      if monthNames.any (fun m => hasSubL m.toList cleaned) then du ⟨cleaned⟩
      else none

/-! ### A small backtracking regex engine

`_extract_customer_info_fallback` (the second, overriding definition in
the source) works by `re.search` over fixed pattern lists.  The engine
below implements exactly the constructs those patterns use, with Python
`re` semantics: leftmost match, left-first alternation, greedy
backtracking repetition, `re.MULTILINE` anchors, optional
case-insensitivity on literals, single capture group, lookahead, and a
width-1 negative lookbehind.  Character classes are ASCII (`\w`/`\s` on
non-ASCII text is not modelled).  It is fuel-structural so the kernel can
evaluate it. -/

inductive RNode where
  | lit (s : List Char) (ci : Bool)
  | cls (p : Char → Bool)
  | seq (a b : RNode)
  | alt (a b : RNode)
  | rep (a : RNode) (lo : Nat) (hi : Option Nat)
  | grp (a : RNode)
  | look (positive : Bool) (a : RNode)
  | prevNot (p : Char → Bool)
  | bol
  | eol

def ciEq (ci : Bool) (a b : Char) : Bool :=
  if ci then a.toLower == b.toLower else a == b

def litMatch (txt : List Char) (ci : Bool) : Nat → List Char → Option Nat
  | pos, [] => some pos
  | pos, c :: rest =>
    match txt.get? pos with
    | some t => if ciEq ci c t then litMatch txt ci (pos + 1) rest else none
    | none => none

/-- One backtracking match step in continuation-passing style.  The
continuation receives the position after the node and the current group-1
span; `none` from it triggers backtracking.  Fuel only bounds recursion
depth; the callers supply more than any of the embedded patterns can
use. -/
def matchR (txt : List Char) :
    Nat → RNode → Nat → Option (Nat × Nat) →
    (Nat → Option (Nat × Nat) → Option (Nat × Option (Nat × Nat))) →
    Option (Nat × Option (Nat × Nat))
  | 0, _, _, _, _ => none
  | fuel + 1, node, pos, g1, k =>
    match node with
    | .lit s ci =>
      match litMatch txt ci pos s with
      | some p' => k p' g1
      | none => none
    | .cls p =>
      match txt.get? pos with
      | some c => if p c then k (pos + 1) g1 else none
      | none => none
    | .seq a b => matchR txt fuel a pos g1 (fun p' g' => matchR txt fuel b p' g' k)
    | .alt a b => (matchR txt fuel a pos g1 k).orElse fun _ => matchR txt fuel b pos g1 k
    | .rep a lo hi =>
      if lo > 0 then
        matchR txt fuel a pos g1 (fun p' g' =>
          matchR txt fuel (.rep a (lo - 1) (hi.map (· - 1))) p' g' k)
      else
        match hi with
        | some 0 => k pos g1
        | _ =>
          (matchR txt fuel a pos g1 (fun p' g' =>
            if p' == pos then none
            else matchR txt fuel (.rep a 0 (hi.map (· - 1))) p' g' k)).orElse
            fun _ => k pos g1
    | .grp a => matchR txt fuel a pos g1 (fun p' _ => k p' (some (pos, p')))
    | .look positive a =>
      match matchR txt fuel a pos g1 (fun p' g' => some (p', g')) with
      | some _ => if positive then k pos g1 else none
      | none => if positive then none else k pos g1
    | .prevNot p =>
      match pos with
      | 0 => k pos g1
      | q + 1 =>
        match txt.get? q with
        | some c => if p c then none else k pos g1
        | none => k pos g1
    | .bol =>
      if pos == 0 || (txt.get? (pos - 1)).any (· == nlC) then k pos g1 else none
    | .eol =>
      if pos == txt.length || (txt.get? pos).any (· == nlC) then k pos g1 else none

def matchFuel (txt : List Char) : Nat :=
  (txt.length + 2) * 256 + 256

/-- `re.search`: try each start position left to right, first match wins;
returns the group-1 span of that match. -/
def reSearchAux (txt : List Char) (node : RNode) : Nat → Nat → Option (Option (Nat × Nat))
  | 0, _ => none
  | rem + 1, pos =>
    match matchR txt (matchFuel txt) node pos none (fun p' g' => some (p', g')) with
    | some (_, g) => some g
    | none => reSearchAux txt node rem (pos + 1)

/-- The group-1 text of the leftmost `re.search` match, if any. -/
def reSearch1 (txt : List Char) (node : RNode) : Option (List Char) :=
  match reSearchAux txt node (txt.length + 1) 0 with
  | none => none
  | some none => none
  | some (some (a, b)) => some ((txt.take b).drop a)

/-! ### The fallback patterns (`_extract_customer_info_fallback`, the
second, overriding definition in the source) -/

def isUpperC (c : Char) : Bool :=
  'A' ≤ c && c ≤ 'Z'

def isAlphaC (c : Char) : Bool :=
  isUpperC c || ('a' ≤ c && c ≤ 'z')

def rcat : List RNode → RNode
  | [] => .lit [] false
  | [n] => n
  | n :: rest => .seq n (rcat rest)

def raltList : List RNode → RNode
  | [] => .lit [] false
  | [n] => n
  | n :: rest => .alt n (raltList rest)

/-- Left-first alternation of literal words. -/
def litsAlt (ws : List String) (ci : Bool) : RNode :=
  raltList (ws.map (fun w => .lit w.toList ci))

def wsPlus : RNode := .rep (.cls isPyWs) 1 none

def wsStar : RNode := .rep (.cls isPyWs) 0 none

def dig12 : RNode := .rep (.cls isDigitC) 1 (some 2)

def dig4 : RNode := .rep (.cls isDigitC) 4 (some 4)

def commaOpt : RNode := .rep (.lit [','] false) 0 (some 1)

def monthsFullAlt : RNode :=
  litsAlt ["January", "February", "March", "April", "May", "June", "July",
    "August", "September", "October", "November", "December"] true

def monthsAbbrAlt : RNode :=
  litsAlt ["Jan", "Feb", "Mar", "Apr", "May", "Jun", "Jul", "Aug", "Sep",
    "Oct", "Nov", "Dec"] true

/-- `(Month)\s+\d{1,2},?\s+\d{4}` (the inner month alternation is
non-capturing here; Python's group 2 is never read). -/
def dateBodyFull : RNode :=
  rcat [monthsFullAlt, wsPlus, dig12, commaOpt, wsPlus, dig4]

def dateBodyAbbr : RNode :=
  rcat [monthsAbbrAlt, wsPlus, dig12, commaOpt, wsPlus, dig4]

/-- The six date patterns searched with `re.IGNORECASE | re.MULTILINE`, in
source order. -/
def datePatterns : List RNode :=
  [.grp (rcat [dig12, .lit ['/'] false, dig12, .lit ['/'] false, dig4]),
   .grp (rcat [dig12, .lit ['-'] false, dig12, .lit ['-'] false, dig4]),
   .grp dateBodyFull,
   .grp dateBodyAbbr,
   .grp (rcat [dig4, .cls (fun c => c == '-' || c == '/'), dig12,
     .cls (fun c => c == '-' || c == '/'), dig12]),
   .seq .bol (.grp dateBodyAbbr)]

def coSuffixAlt : RNode := litsAlt ["Corp", "Inc", "LLC", "Ltd"] false

def dotOpt : RNode := .rep (.lit ['.'] false) 0 (some 1)

/-- `[A-Z][a-zA-Z]+`. -/
def nameWord : RNode := rcat [.cls isUpperC, .rep (.cls isAlphaC) 1 none]

/-- `[A-Z][a-zA-Z]+(?:\s+[A-Z][a-zA-Z]+){0,2}`. -/
def nameSeq : RNode := rcat [nameWord, .rep (rcat [wsPlus, nameWord]) 0 (some 2)]

def meetPrefixAlt : RNode :=
  litsAlt ["meeting with", "call with", "discussion with"] false

/-- The eleven company patterns searched with `re.MULTILINE`
(case-sensitive), in source order. -/
def companyPatterns : List RNode :=
  [.grp (rcat [.rep (.cls isDigitC) 1 none,
     .rep (.cls (fun c => c == '-' || isPyWs c)) 0 (some 1), .lit "Eleven".toList false]),
   rcat [.prevNot isDigitC,
     .grp (rcat [dig12, .cls (fun c => c == '-' || isPyWs c), dig12]),
     .look false (.cls isDigitC)],
   rcat [.grp (rcat [.cls isUpperC, .rep (.cls isAlphaC) 0 none, coSuffixAlt]), dotOpt],
   rcat [.grp (rcat [.cls isUpperC, .rep (.cls isAlphaC) 1 none, wsPlus, coSuffixAlt]), dotOpt],
   rcat [meetPrefixAlt, wsPlus, .grp nameSeq,
     .look true (rcat [wsPlus, .lit "on".toList false, .cls isPyWs])],
   rcat [meetPrefixAlt, wsPlus, .grp nameSeq,
     .look true (.alt (.cls (fun c => c == '.' || c == ',')) .eol)],
   rcat [.grp nameSeq, wsPlus, litsAlt ["discussion", "meeting", "call"] false],
   rcat [.bol, .grp nameSeq, wsStar,
     .cls (fun c => c == '-' || c == Char.ofNat 8211 || c == ':')],
   rcat [litsAlt ["Customer", "Client"] false, .lit [':'] false, wsStar, .grp nameSeq],
   rcat [.grp nameSeq, wsPlus, litsAlt ["team", "customer", "client"] false],
   rcat [.bol, .grp (rcat [.cls isUpperC, .rep (.cls isAlphaC) 1 none]),
     .alt (.cls isPyWs) .eol]]

def companySkipWords : List String :=
  ["attendees", "notes", "tldr", "eng", "raw", "context", "very", "but", "with"]

/-- The candidate filter applied to a company match: no skip word as a
substring of its lowercasing, at most 4 whitespace tokens, fewer than 50
characters. -/
def candidateOk (cand : List Char) : Bool :=
  (!companySkipWords.any (fun w => hasSubL w.toList (cand.map Char.toLower))) &&
    decide ((pySplitWs cand).length ≤ 4) && decide (cand.length < 50)

/-- First pattern whose match survives the filter; a match that fails the
filter discards that pattern (the source moves on to the next pattern,
not to the next match). -/
def firstGoodCompany : List RNode → List Char → Option String
  | [], _ => none
  | p :: rest, txt =>
    match reSearch1 txt p with
    | some g =>
      let cand := pyStripL g
      if candidateOk cand then some ⟨cand⟩ else firstGoodCompany rest txt
    | none => firstGoodCompany rest txt

def firstDateMatch : List RNode → List Char → Option (List Char)
  | [], _ => none
  | p :: rest, txt =>
    match reSearch1 txt p with
    | some g => some g
    | none => firstDateMatch rest txt

/-- The meeting-date half of `_extract_customer_info_fallback`: the first
date-pattern match is passed through the date normalizer, falling back to
the raw matched string when normalization returns `None`. -/
def fallbackMeetingDate (du : String → Option String) (text : String) : Option String :=
  match firstDateMatch datePatterns text.toList with
  | none => none
  | some d => some ((parseAndFormatDate du ⟨d⟩).getD ⟨d⟩)

/-- `_extract_customer_info_fallback` (regex-only; no model calls). -/
def extractCustomerInfoFallback (du : String → Option String) (text : String) :
    Option String × Option String :=
  (firstGoodCompany companyPatterns text.toList, fallbackMeetingDate du text)

/-- `_extract_customer_info`: on a missing or empty gateway response, the
regex fallback; otherwise the LLM-response parse. -/
def extractCustomerInfo (resp : Option String) (du : String → Option String)
    (text : String) : Option JVal × Option JVal :=
  match resp with
  | none =>
    let (c, d) := extractCustomerInfoFallback du text
    (c.map .jstr, d.map .jstr)
  | some r =>
    if r == "" then
      let (c, d) := extractCustomerInfoFallback du text
      (c.map .jstr, d.map .jstr)
    else parseCustomerLLM r

/-! ### The orchestrator (`analyze_text`) -/

/-- `QuickAnalysisResult` from `document_models.py`: the customer fields
are `Optional[str]`, validated by pydantic at construction; `categories`
is the insertion-ordered dict. -/
structure QuickAnalysisResult where
  customer_name : Option String
  meeting_date : Option String
  categories : List (String × CategoryResult)
  processing_time_ms : Nat
  word_count : Nat
  deriving DecidableEq, Repr

/-- pydantic v2 validation of an `Optional[str]` field: Python `None` and
strings pass; any other value (number, boolean, container) raises a
`ValidationError`, modelled as `none`. -/
def vOptStr : Option JVal → Option (Option String)
  | none => some none
  | some (.jstr s) => some (some s)
  | some _ => none

/-- Python dict assignment on the categories mapping. -/
def dictSetCR : List (String × CategoryResult) → String → CategoryResult →
    List (String × CategoryResult)
  | [], k, v => [(k, v)]
  | (k', v') :: rest, k, v =>
    if k' == k then (k, v) :: rest else (k', v') :: dictSetCR rest k v

/-- The raw customer fields `analyze_text` computes before constructing
the result: the customer/date extraction on gateway call 0 when
requested, else `(None, None)`. -/
def customerFields (resp : Nat → Option String) (du : String → Option String)
    (text : String) (extractCI : Bool) : Option JVal × Option JVal :=
  if extractCI then extractCustomerInfo (resp 0) du text else (none, none)

/-- `analyze_text`: optional customer/date extraction (gateway call 0),
then each schema category in order through `_process_category`, then the
`QuickAnalysisResult` construction, whose pydantic validation of the
`Optional[str]` customer fields can raise a `ValidationError` — modelled
as the `none` result, in which case the call returns nothing.  `resp`
maps gateway-call indices of this analysis to responses; `du` is the
`dateutil` oracle; `elapsedMs` stands for the unmodelled wall clock.  The
source's `fast_mode` parameter is accepted but never read by
`_process_category`, so it is omitted here. -/
def analyzeText (resp : Nat → Option String) (du : String → Option String)
    (modelEndpoint : String) (elapsedMs : Nat) (text : String)
    (schema : SchemaTemplate) (extractCI : Bool) : Option QuickAnalysisResult :=
  let cust := customerFields resp du text extractCI
  let n0 := if extractCI then 1 else 0
  let fold := schema.categories.foldl
    (fun (acc : List (String × CategoryResult) × Nat) cat =>
      let step := processCategory resp acc.2 modelEndpoint cat
      (dictSetCR acc.1 cat.name step.1, step.2.1))
    ([], n0)
  match vOptStr cust.1, vOptStr cust.2 with
  | some c, some d =>
    some
      { customer_name := c
        meeting_date := d
        categories := fold.1
        processing_time_ms := elapsedMs
        word_count := (pySplitWs text.toList).length }
  | _, _ => none

/-! ### The Model Gateway (`_query_databricks_model`) -/

/-- Outcome of one physical endpoint call as seen through the
`try`/`except` of the retry loop: a response with its list of choice
message contents, an `asyncio.TimeoutError`, or any other exception with
its message string. -/
inductive CallOutcome where
  | choices (cs : List String)
  | timeout
  | err (msg : String)
  deriving DecidableEq, Repr

/-- The process-wide mutable engine attributes touched by the gateway.
`hasClient` models `self.databricks_client is not None`. -/
structure EngineState where
  cache : List ((String × Nat) × String)
  endpoints : List String
  consecutiveFailures : Nat
  maxConsecutiveFailures : Nat
  llmAvailable : Bool
  hasClient : Bool
  deriving DecidableEq, Repr

/-- `self._cache_max_size`. -/
def cacheMaxSize : Nat := 50

/-- The md5 cache key of `f"{prompt}_{max_tokens}"` is modelled by the
pair itself: the formatted string determines the pair (its decimal suffix
has no underscore) and md5 is treated as collision-free. -/
def cacheLookup : List ((String × Nat) × String) → String × Nat → Option String
  | [], _ => none
  | (k', v) :: rest, k => if k' == k then some v else cacheLookup rest k

/-- Python dict assignment on the response cache. -/
def cacheSet : List ((String × Nat) × String) → String × Nat → String →
    List ((String × Nat) × String)
  | [], k, v => [(k, v)]
  | (k', v') :: rest, k, v =>
    if k' == k then (k, v) :: rest else (k', v') :: cacheSet rest k v

/-- Store the response, then pop the oldest entry while the bound is
exceeded (`self._cache.pop(next(iter(self._cache)))`). -/
def cacheInsertEvict (c : List ((String × Nat) × String)) (k : String × Nat)
    (v : String) : List ((String × Nat) × String) :=
  let c' := cacheSet c k v
  if c'.length > cacheMaxSize then c'.tail else c'

/-- Python `s.lower()` (ASCII; kernel-evaluable unlike `String.toLower`). -/
def lowerStr (s : String) : String :=
  ⟨s.toList.map Char.toLower⟩

/-- `'REQUEST_LIMIT_EXCEEDED' in error_str or 'rate limit' in error_str.lower()`. -/
def isRateLimitMsg (m : String) : Bool :=
  hasSub "REQUEST_LIMIT_EXCEEDED" m || hasSub "rate limit" (lowerStr m)

/-- `'upstream' in error_str.lower() or 'not found' in error_str.lower()`. -/
def isUpstreamOrNotFound (m : String) : Bool :=
  hasSub "upstream" (lowerStr m) || hasSub "not found" (lowerStr m)

/-- The promotion swap
`endpoints[0], endpoints[idx] = endpoints[idx], endpoints[0]`. -/
def swapWithFront (l : List String) (idx : Nat) : List String :=
  match l.get? 0, l.get? idx with
  | some a, some b => (l.set 0 b).set idx a
  | _, _ => l

/-- The fixed mock responder selected by `USE_MOCK_LLM`. -/
def mockResponse (prompt : String) : String :=
  if hasSub "customer" (lowerStr prompt) then
    "\x7b\"customer_name\": \"ACME Corp\", \"meeting_date\": \"2025-01-15\"\x7d"
  else if hasSub "predefined" (lowerStr prompt) then
    "\x7b\"values\": [\"Vector Search\"], \"evidence\": [\"needs Vector Search\"], \"confidence\": 0.9\x7d"
  else
    "\x7b\"values\": [\"product catalog search\"], \"evidence\": [\"for their product catalog\"], \"confidence\": 0.8\x7d"

/-- Result of one `_query_databricks_model` call: the returned content,
the engine state afterwards, the backoff sleeps performed (in seconds,
in order), and the number of physical endpoint calls issued. -/
structure QueryOut where
  content : Option String
  st : EngineState
  sleeps : List Nat
  calls : Nat
  deriving DecidableEq, Repr

/-- The `for retry in range(3)` loop on one endpoint.  Returns
`(content?, failures', sleeps', calls')`; `content? = none` means "move
to the next endpoint".  Only a rate-limit error with `retry < 2`
continues the loop, after a `(retry+1)*10`-second sleep; timeouts and
unrecognized errors increment the failure counter and break. -/
def retryLoop (ora : String → Nat → CallOutcome) (ep : String) :
    Nat → Nat → Nat → List Nat → Nat → Option String × Nat × List Nat × Nat
  | _, 0, failures, sleeps, calls => (none, failures, sleeps, calls)
  | retry, fuel + 1, failures, sleeps, calls =>
    let calls := calls + 1
    match ora ep retry with
    | .choices [] => (none, failures, sleeps, calls)
    | .choices (c :: _) => (some c, failures, sleeps, calls)
    | .timeout => (none, failures + 1, sleeps, calls)
    | .err m =>
      let es : String := ⟨m.toList.take 200⟩
      if isRateLimitMsg es then
        if retry < 2 then
          retryLoop ora ep (retry + 1) fuel failures (sleeps ++ [(retry + 1) * 10]) calls
        else (none, failures, sleeps, calls)
      else if isUpstreamOrNotFound es then (none, failures, sleeps, calls)
      else (none, failures + 1, sleeps, calls)

/-- The endpoint failover loop over `enumerate(self.available_endpoints)`.
On success: reset the failure counter, mark the LLM available, swap the
serving endpoint to the front when its index is positive, and cache the
content under the query key.  After exhausting all endpoints: return
`None`, disabling the availability flag when the failure counter has
reached its threshold. -/
def endpointLoop (ora : String → Nat → CallOutcome) (key : String × Nat) :
    List (Nat × String) → EngineState → List Nat → Nat → QueryOut
  | [], st, sleeps, calls =>
    let st :=
      if st.consecutiveFailures ≥ st.maxConsecutiveFailures then
        { st with llmAvailable := false }
      else st
    ⟨none, st, sleeps, calls⟩
  | (idx, ep) :: rest, st, sleeps, calls =>
    match retryLoop ora ep 0 3 st.consecutiveFailures sleeps calls with
    | (some c, _, s', c') =>
      let st' :=
        { st with
          consecutiveFailures := 0
          llmAvailable := true
          endpoints := if idx > 0 then swapWithFront st.endpoints idx else st.endpoints
          cache := cacheInsertEvict st.cache key c }
      ⟨some c, st', s', c'⟩
    | (none, f', s', c') =>
      endpointLoop ora key rest { st with consecutiveFailures := f' } s' c'

/-- `_query_databricks_model`.  `ora` maps an endpoint name and the retry
index within this call to the physical outcome; `useMock` is the
`USE_MOCK_LLM` environment toggle. -/
def queryModel (ora : String → Nat → CallOutcome) (useMock : Bool)
    (st : EngineState) (prompt : String) (maxTokens : Nat) : QueryOut :=
  if useMock then ⟨some (mockResponse prompt), st, [], 0⟩
  else if !st.hasClient || st.endpoints.isEmpty then ⟨none, st, [], 0⟩
  else
    let key := (prompt, maxTokens)
    match cacheLookup st.cache key with
    | some v => ⟨some v, st, [], 0⟩
    | none => endpointLoop ora key st.endpoints.enum st [] 0

/-! ### Helper lemmas -/

/-- Replacing an element and prepending the removed one is a permutation. -/
theorem cons_set_perm (x : String) :
    ∀ (xs : List String) (k : Nat) (b : String), xs.get? k = some b →
      (b :: xs.set k x).Perm (x :: xs) := by
  intro xs
  induction xs with
  | nil => intro k b h; simp at h
  | cons y ys ih =>
    intro k b h
    cases k with
    | zero =>
      simp only [List.get?_cons_zero, Option.some.injEq] at h
      rw [← h]
      simpa using List.Perm.swap x y ys
    | succ j =>
      simp only [List.get?_cons_succ] at h
      simp only [List.set_cons_succ]
      exact ((List.Perm.swap y b _).trans ((ih j b h).cons y)).trans
        (List.Perm.swap x y ys)

/-- The promotion swap permutes the endpoint list. -/
theorem swapWithFront_perm (l : List String) (idx : Nat) :
    (swapWithFront l idx).Perm l := by
  unfold swapWithFront
  cases l with
  | nil => simp
  | cons x xs =>
    cases idx with
    | zero => simp
    | succ k =>
      simp only [List.get?_cons_zero, List.get?_cons_succ]
      cases h : xs.get? k with
      | none => exact List.Perm.refl _
      | some b =>
        simp only [List.set_cons_zero, List.set_cons_succ]
        exact cons_set_perm x xs k b h

/-- A fresh key is appended by Python dict assignment. -/
theorem dictSetCR_append (k : String) (v : CategoryResult) :
    ∀ (m : List (String × CategoryResult)), k ∉ m.map Prod.fst →
      dictSetCR m k v = m ++ [(k, v)] := by
  intro m
  induction m with
  | nil => intro _; rfl
  | cons p rest ih =>
    intro h
    simp only [List.map_cons, List.mem_cons] at h
    push_neg at h
    obtain ⟨h1, h2⟩ := h
    simp only [dictSetCR]
    rw [if_neg (by simpa using fun hc => h1 hc.symm), ih h2]
    simp

/-- A fresh key is appended by Python dict assignment (response cache). -/
theorem cacheSet_append (k : String × Nat) (v : String) :
    ∀ (m : List ((String × Nat) × String)), cacheLookup m k = none →
      cacheSet m k v = m ++ [(k, v)] := by
  intro m
  induction m with
  | nil => intro _; rfl
  | cons p rest ih =>
    obtain ⟨k', v'⟩ := p
    intro h
    simp only [cacheLookup] at h
    by_cases hc : k' == k
    · simp [hc] at h
    · simp only [cacheSet, if_neg hc]
      rw [ih (by simpa [hc] using h)]
      simp

theorem cacheLookup_append_right (k : String × Nat) (v : String) :
    ∀ (m : List ((String × Nat) × String)), cacheLookup m k = none →
      cacheLookup (m ++ [(k, v)]) k = some v := by
  intro m
  induction m with
  | nil => intro _; simp [cacheLookup]
  | cons p rest ih =>
    obtain ⟨k', v'⟩ := p
    intro h
    simp only [cacheLookup] at h
    by_cases hc : k' == k
    · simp [hc] at h
    · simp only [List.cons_append, cacheLookup, if_neg hc]
      exact ih (by simpa [hc] using h)

theorem cacheLookup_tail (k : String × Nat) :
    ∀ (m : List ((String × Nat) × String)), cacheLookup m k = none →
      cacheLookup m.tail k = none := by
  intro m h
  cases m with
  | nil => simpa using h
  | cons p rest =>
    obtain ⟨k', v'⟩ := p
    simp only [cacheLookup] at h
    by_cases hc : k' == k
    · simp [hc] at h
    · simpa [hc] using h

/-- The freshly inserted response survives eviction: eviction pops the
head, and a just-appended entry is at the head only if the cache held
just it. -/
theorem cacheInsertEvict_lookup (c : List ((String × Nat) × String))
    (k : String × Nat) (v : String) (h : cacheLookup c k = none) :
    cacheLookup (cacheInsertEvict c k v) k = some v := by
  unfold cacheInsertEvict
  rw [cacheSet_append k v c h]
  by_cases hl : (c ++ [(k, v)]).length > cacheMaxSize
  · rw [if_pos hl]
    cases c with
    | nil => simp [cacheMaxSize] at hl
    | cons p rest =>
      simp only [List.cons_append, List.tail_cons]
      refine cacheLookup_append_right k v rest ?_
      have := cacheLookup_tail k (p :: rest) h
      simpa using this
  · rw [if_neg hl]
    exact cacheLookup_append_right k v c h

theorem cacheInsertEvict_len (c : List ((String × Nat) × String))
    (k : String × Nat) (v : String) (h : c.length ≤ cacheMaxSize) :
    (cacheInsertEvict c k v).length ≤ cacheMaxSize := by
  unfold cacheInsertEvict
  have hset : ∀ m : List ((String × Nat) × String), (cacheSet m k v).length ≤ m.length + 1 := by
    intro m
    induction m with
    | nil => simp [cacheSet]
    | cons p rest ih =>
      simp only [cacheSet]
      split
      · simp
      · simpa using ih
  by_cases hl : (cacheSet c k v).length > cacheMaxSize
  · rw [if_pos hl]
    have := hset c
    simp only [List.length_tail]
    omega
  · rw [if_neg hl]
    omega

/-- Master case analysis of the endpoint failover loop: either it falls
through every endpoint returning `none` and touching neither the cache
nor the endpoint list, or it succeeds with some content, writing exactly
that content into the cache and at most swapping one endpoint to the
front. -/
theorem endpointLoop_cases (ora : String → Nat → CallOutcome) (key : String × Nat) :
    ∀ (eps : List (Nat × String)) (st : EngineState) (sleeps : List Nat) (calls : Nat),
      (endpointLoop ora key eps st sleeps calls).content = none ∧
        (endpointLoop ora key eps st sleeps calls).st.cache = st.cache ∧
        (endpointLoop ora key eps st sleeps calls).st.endpoints = st.endpoints ∧
        (endpointLoop ora key eps st sleeps calls).st.hasClient = st.hasClient ∨
      (∃ c idx, (endpointLoop ora key eps st sleeps calls).content = some c ∧
        (endpointLoop ora key eps st sleeps calls).st.cache = cacheInsertEvict st.cache key c ∧
        (endpointLoop ora key eps st sleeps calls).st.endpoints =
          (if idx > 0 then swapWithFront st.endpoints idx else st.endpoints) ∧
        (endpointLoop ora key eps st sleeps calls).st.hasClient = st.hasClient) := by
  intro eps
  induction eps with
  | nil =>
    intro st sleeps calls
    left
    simp only [endpointLoop]
    split <;> simp
  | cons p rest ih =>
    obtain ⟨idx, ep⟩ := p
    intro st sleeps calls
    simp only [endpointLoop]
    cases hr : retryLoop ora ep 0 3 st.consecutiveFailures sleeps calls with
    | mk o rest3 =>
      obtain ⟨f', s', c'⟩ := rest3
      cases o with
      | some c =>
        right
        exact ⟨c, idx, rfl, rfl, rfl, rfl⟩
      | none =>
        exact ih { st with consecutiveFailures := f' } s' c'

/-- C9: every call to `_query_databricks_model` leaves `available_endpoints`
a permutation of its previous contents: a success may swap the serving
endpoint with position 0, and no call path adds, removes, or duplicates
endpoints. -/
theorem c9_endpoints_permutation (ora : String → Nat → CallOutcome) (useMock : Bool)
    (st : EngineState) (prompt : String) (maxTokens : Nat) :
    ((queryModel ora useMock st prompt maxTokens).st.endpoints).Perm st.endpoints := by
  unfold queryModel
  by_cases hm : useMock
  · simp [hm]
  · simp only [hm, if_false, Bool.false_eq_true]
    by_cases hg : (!st.hasClient || st.endpoints.isEmpty) = true
    · simp [hg]
    · simp only [hg, if_false, Bool.false_eq_true]
      cases hl : cacheLookup st.cache (prompt, maxTokens) with
      | some v => simp
      | none =>
        simp only []
        rcases endpointLoop_cases ora (prompt, maxTokens) st.endpoints.enum st [] 0 with
          ⟨_, _, hep, _⟩ | ⟨c, idx, _, _, hep, _⟩
        · rw [hep]
        · rw [hep]
          split
          · exact swapWithFront_perm st.endpoints idx
          · exact List.Perm.refl _

/-- C10: on the non-mock path, a call that returns `None` leaves the
response cache unchanged; when content is returned, it can be looked up
in the cache afterwards under the call's key, and the only possible cache
change is the single insertion (with bounded eviction) of exactly that
content. -/
theorem c10_cache_on_failure (ora : String → Nat → CallOutcome)
    (st : EngineState) (prompt : String) (maxTokens : Nat) :
    ((queryModel ora false st prompt maxTokens).content = none →
      (queryModel ora false st prompt maxTokens).st.cache = st.cache) ∧
    (∀ c, (queryModel ora false st prompt maxTokens).content = some c →
      cacheLookup (queryModel ora false st prompt maxTokens).st.cache (prompt, maxTokens)
          = some c ∧
      ((queryModel ora false st prompt maxTokens).st.cache = st.cache ∨
        (queryModel ora false st prompt maxTokens).st.cache
          = cacheInsertEvict st.cache (prompt, maxTokens) c)) := by
  unfold queryModel
  simp only [Bool.false_eq_true, if_false]
  by_cases hg : (!st.hasClient || st.endpoints.isEmpty) = true
  · simp [hg]
  · simp only [hg, if_false, Bool.false_eq_true]
    cases hl : cacheLookup st.cache (prompt, maxTokens) with
    | some v =>
      refine ⟨by intro h; rfl, ?_⟩
      intro c hc
      simp only at hc
      cases hc
      exact ⟨hl, Or.inl rfl⟩
    | none =>
      rcases endpointLoop_cases ora (prompt, maxTokens) st.endpoints.enum st [] 0 with
        ⟨hub, hcache, _, _⟩ | ⟨c, idx, hub, hcache, _, _⟩
      · refine ⟨fun _ => hcache, ?_⟩
        intro c hc
        rw [hub] at hc
        cases hc
      · refine ⟨fun h => ?_, ?_⟩
        · rw [hub] at h; cases h
        · intro c' hc
          rw [hub] at hc
          cases hc
          rw [hcache]
          exact ⟨cacheInsertEvict_lookup st.cache (prompt, maxTokens) c hl, Or.inr rfl⟩

/-- C7: after a first query call that succeeds, an immediately following
call with the same `(prompt, max_tokens)` issues zero underlying model
calls and returns the same content from the cache; the cache bound of 50
entries is preserved; and when a full cache takes a fresh entry, the
eviction drops exactly the oldest entry while appending the new one. -/
theorem c7_cache_dedup_and_bound (ora : String → Nat → CallOutcome) (st : EngineState)
    (prompt : String) (maxTokens : Nat) (c : String)
    (h50 : st.cache.length ≤ cacheMaxSize)
    (hsucc : (queryModel ora false st prompt maxTokens).content = some c) :
    (queryModel ora false (queryModel ora false st prompt maxTokens).st prompt
        maxTokens).calls = 0 ∧
    (queryModel ora false (queryModel ora false st prompt maxTokens).st prompt
        maxTokens).content = some c ∧
    (queryModel ora false st prompt maxTokens).st.cache.length ≤ cacheMaxSize ∧
    (cacheLookup st.cache (prompt, maxTokens) = none →
      st.cache.length = cacheMaxSize →
      (queryModel ora false st prompt maxTokens).st.cache
        = st.cache.tail ++ [((prompt, maxTokens), c)]) := by
  by_cases hg : (!st.hasClient || st.endpoints.isEmpty) = true
  · exfalso
    unfold queryModel at hsucc
    simp [hg] at hsucc
  · have hg' : (!st.hasClient || st.endpoints.isEmpty) = false := by
      simpa using hg
    have hclient : st.hasClient = true := by
      cases hcl : st.hasClient <;> simp [hcl] at hg' ⊢
    have hne : st.endpoints.isEmpty = false := by
      cases he : st.endpoints.isEmpty <;> simp [he] at hg' ⊢
    cases hl : cacheLookup st.cache (prompt, maxTokens) with
    | some v =>
      have hout1 : queryModel ora false st prompt maxTokens
          = ⟨some v, st, [], 0⟩ := by
        unfold queryModel
        simp [hg', hl]
      have hvc : v = c := by
        rw [hout1] at hsucc
        simpa using hsucc
      have hl' : cacheLookup st.cache (prompt, maxTokens) = some c := by
        rw [hl, hvc]
      have hout2 : queryModel ora false
          (queryModel ora false st prompt maxTokens).st prompt maxTokens
          = ⟨some c, st, [], 0⟩ := by
        rw [hout1]
        unfold queryModel
        simp [hg', hl']
      refine ⟨by rw [hout2], by rw [hout2], by rw [hout1]; exact h50, ?_⟩
      intro hn _
      simp [hl] at hn
    | none =>
      have hout1 : queryModel ora false st prompt maxTokens
          = endpointLoop ora (prompt, maxTokens) st.endpoints.enum st [] 0 := by
        unfold queryModel
        simp [hg', hl]
      rcases endpointLoop_cases ora (prompt, maxTokens) st.endpoints.enum st [] 0 with
        ⟨hub, _, _, _⟩ | ⟨c', idx, hub, hcache, hep, hhc⟩
      · exfalso
        rw [hout1, hub] at hsucc
        cases hsucc
      · rw [hout1] at hsucc ⊢
        rw [hub] at hsucc
        simp only [Option.some.injEq] at hsucc
        subst hsucc
        have hlook : cacheLookup (endpointLoop ora (prompt, maxTokens)
            st.endpoints.enum st [] 0).st.cache (prompt, maxTokens) = some c' := by
          rw [hcache]
          exact cacheInsertEvict_lookup st.cache (prompt, maxTokens) c' hl
        have hep_len : (endpointLoop ora (prompt, maxTokens)
            st.endpoints.enum st [] 0).st.endpoints.length = st.endpoints.length := by
          rw [hep]
          split
          · exact (swapWithFront_perm st.endpoints idx).length_eq
          · rfl
        have hne2 : (endpointLoop ora (prompt, maxTokens)
            st.endpoints.enum st [] 0).st.endpoints.isEmpty = false := by
          cases hE : (endpointLoop ora (prompt, maxTokens)
              st.endpoints.enum st [] 0).st.endpoints with
          | nil =>
            exfalso
            rw [hE] at hep_len
            cases hS : st.endpoints with
            | nil => rw [hS] at hne; simp at hne
            | cons a l => rw [hS] at hep_len; simp at hep_len
          | cons a l => rfl
        have hg2 : (!(endpointLoop ora (prompt, maxTokens)
            st.endpoints.enum st [] 0).st.hasClient ||
            (endpointLoop ora (prompt, maxTokens)
              st.endpoints.enum st [] 0).st.endpoints.isEmpty) = false := by
          rw [hhc, hclient, hne2]
          rfl
        have hout2 : queryModel ora false (endpointLoop ora (prompt, maxTokens)
            st.endpoints.enum st [] 0).st prompt maxTokens
            = ⟨some c', (endpointLoop ora (prompt, maxTokens)
                st.endpoints.enum st [] 0).st, [], 0⟩ := by
          unfold queryModel
          simp [hg2, hlook]
        rw [hout2]
        refine ⟨rfl, rfl, ?_, ?_⟩
        · rw [hcache]
          exact cacheInsertEvict_len st.cache (prompt, maxTokens) c' h50
        · intro _ hfull
          rw [hcache]
          unfold cacheInsertEvict
          rw [cacheSet_append (prompt, maxTokens) c' st.cache hl]
          rw [if_pos (by simp [hfull])]
          cases hcc : st.cache with
          | nil =>
            rw [hcc] at hfull
            simp [cacheMaxSize] at hfull
          | cons p rest => simp

/-- C6: when the first two endpoints fail every try with rate-limit
errors (3 tries each, with 10s/20s backoff sleeps) and the third returns
a response with at least one choice, `query` returns the third endpoint's
first-choice content, promotes that endpoint to priority position 0 by
swapping it with the former first endpoint, and has issued 3+3+1 calls
with backoff trace `[10, 20, 10, 20]`. -/
theorem c6_failover_promotes (ora : String → Nat → CallOutcome) (st : EngineState)
    (prompt : String) (maxTokens : Nat) (e1 e2 e3 m1 m2 c : String) (cs : List String)
    (heps : st.endpoints = [e1, e2, e3])
    (hcl : st.hasClient = true)
    (hmiss : cacheLookup st.cache (prompt, maxTokens) = none)
    (h1 : ∀ r, ora e1 r = .err m1)
    (hm1 : isRateLimitMsg ⟨m1.toList.take 200⟩ = true)
    (h2 : ∀ r, ora e2 r = .err m2)
    (hm2 : isRateLimitMsg ⟨m2.toList.take 200⟩ = true)
    (h3 : ora e3 0 = .choices (c :: cs)) :
    (queryModel ora false st prompt maxTokens).content = some c ∧
    (queryModel ora false st prompt maxTokens).st.endpoints = [e3, e2, e1] ∧
    (queryModel ora false st prompt maxTokens).sleeps = [10, 20, 10, 20] ∧
    (queryModel ora false st prompt maxTokens).calls = 7 := by
  simp only [String.toList] at hm1 hm2
  have hout : queryModel ora false st prompt maxTokens
      = endpointLoop ora (prompt, maxTokens) [(0, e1), (1, e2), (2, e3)] st [] 0 := by
    unfold queryModel
    rw [heps]
    simp [hcl, hmiss, List.enum, List.enumFrom, heps]
  have hrl1 : retryLoop ora e1 0 3 st.consecutiveFailures [] 0
      = (none, st.consecutiveFailures, [10, 20], 3) := by
    simp [retryLoop, h1, hm1, String.toList]
  have hrl2 : retryLoop ora e2 0 3 st.consecutiveFailures [10, 20] 3
      = (none, st.consecutiveFailures, [10, 20, 10, 20], 6) := by
    simp [retryLoop, h2, hm2, String.toList]
  have hrl3 : retryLoop ora e3 0 3 st.consecutiveFailures [10, 20, 10, 20] 6
      = (some c, st.consecutiveFailures, [10, 20, 10, 20], 7) := by
    simp [retryLoop, h3]
  rw [hout]
  simp only [endpointLoop, hrl1, hrl2, hrl3]
  simp [heps, swapWithFront]

/-- Keys of the category fold: with pairwise distinct (and fresh) category
names, each schema category appends exactly one entry under its name. -/
theorem analyze_fold_keys (resp : Nat → Option String) (me : String) :
    ∀ (cats : List CategoryDefinition) (acc : List (String × CategoryResult)) (n : Nat),
      (cats.map (·.name)).Nodup →
      (∀ cd ∈ cats, cd.name ∉ acc.map Prod.fst) →
      ((cats.foldl
          (fun (acc : List (String × CategoryResult) × Nat) cat =>
            let step := processCategory resp acc.2 me cat
            (dictSetCR acc.1 cat.name step.1, step.2.1))
          (acc, n)).1.map Prod.fst) = acc.map Prod.fst ++ cats.map (·.name) := by
  intro cats
  induction cats with
  | nil => intro acc n _ _; simp
  | cons cd rest ih =>
    intro acc n hnd hfresh
    simp only [List.map_cons, List.nodup_cons] at hnd
    obtain ⟨hni, hnd'⟩ := hnd
    simp only [List.foldl_cons]
    have hfr : cd.name ∉ acc.map Prod.fst := hfresh cd (List.mem_cons_self cd rest)
    rw [show (dictSetCR acc cd.name
          (processCategory resp n me cd).1) = acc ++ [(cd.name, (processCategory resp n me cd).1)]
        from dictSetCR_append cd.name _ acc hfr]
    rw [ih _ _ hnd' ?_]
    · simp
    · intro cd' hmem
      simp only [List.map_append, List.mem_append, List.map_cons]
      push_neg
      refine ⟨hfresh cd' (List.mem_cons_of_mem cd hmem), ?_⟩
      intro hc
      simp only [List.map_nil, List.mem_singleton] at hc
      exact hni (hc ▸ List.mem_map_of_mem (·.name) hmem)

/-- C1 (amended): for every schema (with the data-model invariant of
distinct category names), every text and every response oracle,
`analyze_text` either returns a `QuickAnalysisResult` whose categories
mapping contains exactly one entry per schema category, keyed by category
name, in schema order — or it returns nothing, which happens exactly when
a parsed customer field is a non-string, non-null JSON value and the
pydantic validation of the `Optional[str]` fields raises.  (When the
customer query fails, the regex fallback produces only strings, so a
result is always returned.) -/
theorem c1_one_result_per_category (resp : Nat → Option String)
    (du : String → Option String) (me : String) (elapsedMs : Nat) (text : String)
    (schema : SchemaTemplate) (extractCI : Bool)
    (h : (schema.categories.map (·.name)).Nodup) :
    (∀ q, analyzeText resp du me elapsedMs text schema extractCI = some q →
      q.categories.map Prod.fst = schema.categories.map (·.name)) ∧
    (analyzeText resp du me elapsedMs text schema extractCI = none ↔
      (vOptStr (customerFields resp du text extractCI).1 = none ∨
        vOptStr (customerFields resp du text extractCI).2 = none)) := by
  have hkeys := analyze_fold_keys resp me schema.categories []
    (if extractCI then 1 else 0) h (by simp)
  unfold analyzeText
  cases hc : vOptStr (customerFields resp du text extractCI).1 with
  | none =>
    simp only [hc]
    exact ⟨fun q hq => Option.noConfusion hq, by simp⟩
  | some c =>
    cases hd : vOptStr (customerFields resp du text extractCI).2 with
    | none =>
      simp only [hc, hd]
      exact ⟨fun q hq => Option.noConfusion hq, by simp⟩
    | some d =>
      simp only [hc, hd]
      refine ⟨fun q hq => ?_, by simp⟩
      cases hq
      simpa using hkeys

/-- C1 counterexample: with a schema of one category and a customer query
that succeeds with the parseable response `{"customer_name": 42}`, the
parsed field is the number 42, the `Optional[str]` validation raises, and
`analyze_text` returns nothing — although every upstream query succeeded. -/
theorem c1_counterexample :
    parseCustomerLLM "\x7b\"customer_name\": 42\x7d"
      = (some (.jnum (mkRat 42 1)), none) ∧
    analyzeText (fun _ => some "\x7b\"customer_name\": 42\x7d") (fun _ => none) "ep" 0
        "text" ⟨[⟨"Product", none, .predefined, some ["Vector Search", "MLflow"]⟩]⟩ true
      = none ∧
    (fun (_ : Nat) => some "\x7b\"customer_name\": 42\x7d") 0 ≠ none :=
  ⟨rfl, rfl, by simp⟩

/-- Witness for C1 (amended) at a concrete two-category schema with a
failing gateway: a result is returned, with one entry per category in
schema order. -/
theorem c1_witness :
    ((SchemaTemplate.mk
        [⟨"Product", none, .predefined, some ["Vector Search", "MLflow"]⟩,
         ⟨"Industry", none, .inferred, none⟩]).categories.map (·.name)).Nodup ∧
    analyzeText (fun _ => none) (fun _ => none) "ep" 0 "some text"
        (SchemaTemplate.mk
          [⟨"Product", none, .predefined, some ["Vector Search", "MLflow"]⟩,
           ⟨"Industry", none, .inferred, none⟩]) false
      = some
          ⟨none, none,
            [("Product", errorResult "Product"), ("Industry", errorResult "Industry")],
            0, 2⟩ ∧
    ([("Product", errorResult "Product"),
        ("Industry", errorResult "Industry")].map Prod.fst : List String)
      = (SchemaTemplate.mk
          [⟨"Product", none, .predefined, some ["Vector Search", "MLflow"]⟩,
           ⟨"Industry", none, .inferred, none⟩]).categories.map (·.name) :=
  ⟨by decide, rfl,
    (c1_one_result_per_category (fun _ => none) (fun _ => none) "ep" 0 "some text"
        (SchemaTemplate.mk
          [⟨"Product", none, .predefined, some ["Vector Search", "MLflow"]⟩,
           ⟨"Industry", none, .inferred, none⟩]) false (by decide)).1
      ⟨none, none,
        [("Product", errorResult "Product"), ("Industry", errorResult "Industry")],
        0, 2⟩ rfl⟩

/-- The values returned by one extraction attempt depend only on the
gateway response, never on the category definition: there is no
server-side filtering against `possible_values`. -/
theorem processAttempt_values (o : Option String) (me : String) (c : CategoryDefinition) :
    (processAttempt o me c).values
      = (match o with
          | none => []
          | some r =>
            match parseValuesConfEv r with
            | some (vs, _, _) => vs
            | none => []) := by
  cases hv : c.value_type <;> cases o with
  | _ => simp only [processAttempt, hv, errorResult]
  <;> first
    | rfl
    | (rename_i r
       simp only [parseCategoryResponse]
       cases hp : parseValuesConfEv r with
       | none => simp [errorResult]
       | some p =>
         obtain ⟨vs, cf, ev⟩ := p
         simp)

/-- C2 (amended): the category extractor applies no `possible_values`
filtering: its returned `values` are identical for any two category
definitions given the same responses. -/
theorem c2_values_ignore_possible_values (resp : Nat → Option String) (n : Nat)
    (me : String) (cat1 cat2 : CategoryDefinition) :
    (processCategory resp n me cat1).1.values
      = (processCategory resp n me cat2).1.values := by
  unfold processCategory
  have h0 := processAttempt_values (resp n) me cat1
  have h0' := processAttempt_values (resp n) me cat2
  have h1 := processAttempt_values (resp (n + 1)) me cat1
  have h1' := processAttempt_values (resp (n + 1)) me cat2
  simp only [h0, h0', h1, h1']
  split <;> simp [h0, h0', h1, h1']

/-- C2 counterexample: a PREDEFINED category with
`possible_values = ["Vector Search", "MLflow"]` and a model response
claiming `"Databricks"` yields a non-error `CategoryResult` whose values
contain `"Databricks"`, which is not a member of `possible_values`. -/
theorem c2_counterexample :
    (processCategory
        (fun _ => some "\x7b\"values\": [\"Databricks\"], \"evidence\": [\"e\"], \"confidence\": 0.9\x7d")
        0 "ep" ⟨"Product", none, .predefined, some ["Vector Search", "MLflow"]⟩).1.error
      = none ∧
    (processCategory
        (fun _ => some "\x7b\"values\": [\"Databricks\"], \"evidence\": [\"e\"], \"confidence\": 0.9\x7d")
        0 "ep" ⟨"Product", none, .predefined, some ["Vector Search", "MLflow"]⟩).1.values
      = ["Databricks"] ∧
    "Databricks" ∉
      (CategoryDefinition.mk "Product" none .predefined
        (some ["Vector Search", "MLflow"])).possible_values.getD [] :=
  ⟨rfl, rfl, by decide⟩

/-- C3 (amended): if one prompt-and-parse cycle yields an empty values
list, `_process_category` sleeps 1 second and retries the whole cycle
exactly once, returning the second attempt's `CategoryResult` verbatim —
whatever its confidence, model and error fields are; a first cycle with
non-empty values is returned immediately with no sleep. -/
theorem c3_retry_once_returns_second_attempt (resp : Nat → Option String) (n : Nat)
    (me : String) (cat : CategoryDefinition) :
    ((processAttempt (resp n) me cat).values = [] →
      processCategory resp n me cat
        = (processAttempt (resp (n + 1)) me cat, n + 2, [1])) ∧
    ((processAttempt (resp n) me cat).values ≠ [] →
      processCategory resp n me cat = (processAttempt (resp n) me cat, n + 1, [])) := by
  unfold processCategory
  constructor
  · intro h
    simp [h]
  · intro h
    simp [List.isEmpty_iff, h]

/-- Witness for C3 (amended) at a parseable empty-values response. -/
theorem c3_witness :
    (processAttempt (some "\x7b\"values\": [], \"confidence\": 0.8\x7d") "ep"
        ⟨"Product", none, .predefined, some ["Vector Search", "MLflow"]⟩).values = [] ∧
    processCategory (fun _ => some "\x7b\"values\": [], \"confidence\": 0.8\x7d") 0 "ep"
        ⟨"Product", none, .predefined, some ["Vector Search", "MLflow"]⟩
      = (processAttempt (some "\x7b\"values\": [], \"confidence\": 0.8\x7d") "ep"
          ⟨"Product", none, .predefined, some ["Vector Search", "MLflow"]⟩, 2, [1]) :=
  ⟨rfl,
    (c3_retry_once_returns_second_attempt
      (fun _ => some "\x7b\"values\": [], \"confidence\": 0.8\x7d") 0 "ep"
      ⟨"Product", none, .predefined, some ["Vector Search", "MLflow"]⟩).1 rfl⟩

/-- C3 counterexample: when the model legitimately answers with an empty
values list and confidence 0.8 on both cycles, the returned result after
the single retry has the parsed confidence 0.8, the configured model
endpoint, and no error — not confidence 0.0, `model_used = "none"` and an
error string as claimed. -/
theorem c3_counterexample :
    (processCategory (fun _ => some "\x7b\"values\": [], \"confidence\": 0.8\x7d") 0 "ep"
        ⟨"Product", none, .predefined, some ["Vector Search", "MLflow"]⟩).2.2 = [1] ∧
    (processCategory (fun _ => some "\x7b\"values\": [], \"confidence\": 0.8\x7d") 0 "ep"
        ⟨"Product", none, .predefined, some ["Vector Search", "MLflow"]⟩).1
      = ⟨"Product", [], mkRat 4 5, [], "ep", none⟩ ∧
    ¬ ((mkRat 4 5 : Rat) = 0) ∧ ¬ (("ep" : String) = "none") :=
  ⟨rfl, rfl, by decide, by decide⟩

/-- C4 (amended): the customer/date extractor returns parsed scalar
fields verbatim — each of the literal strings `""`, `"null"`, `"None"`,
`"N/A"`, `"NA"` comes back as that string, not as an absence; `None`
arises only from a missing key or a JSON `null` value (or a failed
parse). -/
theorem c4_sentinels_returned_verbatim (du : String → Option String) (text : String) :
    extractCustomerInfo (some "\x7b\"customer_name\": \"\", \"meeting_date\": \"\"\x7d")
        du text = (some (.jstr ""), some (.jstr "")) ∧
    extractCustomerInfo (some "\x7b\"customer_name\": \"null\", \"meeting_date\": \"null\"\x7d")
        du text = (some (.jstr "null"), some (.jstr "null")) ∧
    extractCustomerInfo (some "\x7b\"customer_name\": \"None\", \"meeting_date\": \"None\"\x7d")
        du text = (some (.jstr "None"), some (.jstr "None")) ∧
    extractCustomerInfo (some "\x7b\"customer_name\": \"N/A\", \"meeting_date\": \"N/A\"\x7d")
        du text = (some (.jstr "N/A"), some (.jstr "N/A")) ∧
    extractCustomerInfo (some "\x7b\"customer_name\": \"NA\", \"meeting_date\": \"NA\"\x7d")
        du text = (some (.jstr "NA"), some (.jstr "NA")) ∧
    extractCustomerInfo (some "\x7b\"customer_name\": null\x7d") du text = (none, none) ∧
    extractCustomerInfo (some "\x7b\x7d") du text = (none, none) :=
  ⟨rfl, rfl, rfl, rfl, rfl, rfl, rfl⟩

/-- C4 counterexample: parsing the response
`{"customer_name": "N/A", "meeting_date": ""}` returns
`("N/A", "")`, not `(None, None)`. -/
theorem c4_counterexample :
    extractCustomerInfo (some "\x7b\"customer_name\": \"N/A\", \"meeting_date\": \"\"\x7d")
        (fun _ => none) "text"
      = (some (.jstr "N/A"), some (.jstr "")) ∧
    (some (JVal.jstr "N/A"), some (JVal.jstr "")) ≠
      ((none : Option JVal), (none : Option JVal)) :=
  ⟨rfl, by simp⟩

/-- C5 (amended): only the regex fallback path passes meeting dates
through the date normalizer (falling back to the raw matched string when
it returns `None`); the LLM path returns the parsed `meeting_date` field
verbatim, with no normalization. -/
theorem c5_normalizer_only_in_fallback (du : String → Option String) (text : String)
    (r : String) :
    (fallbackMeetingDate du text = none ∨
      ∃ d, fallbackMeetingDate du text = some ((parseAndFormatDate du d).getD d)) ∧
    (∀ jt fs, extractCandidate customerRepair r = some jt →
      jloads jt = some (.jobj fs) →
      (parseCustomerLLM r).2 = jgetPy fs "meeting_date") := by
  constructor
  · unfold fallbackMeetingDate
    cases h : firstDateMatch datePatterns text.toList with
    | none => exact Or.inl rfl
    | some d => exact Or.inr ⟨⟨d⟩, rfl⟩
  · intro jt fs h1 h2
    unfold parseCustomerLLM
    rw [h1]
    simp [h2]

/-- Witness for C5 (amended) at a concrete LLM response. -/
theorem c5_witness :
    extractCandidate customerRepair "\x7b\"meeting_date\": \"3/11/2025\"\x7d"
        = some "\x7b\"meeting_date\": \"3/11/2025\"\x7d" ∧
    jloads "\x7b\"meeting_date\": \"3/11/2025\"\x7d"
        = some (.jobj [("meeting_date", .jstr "3/11/2025")]) ∧
    (parseCustomerLLM "\x7b\"meeting_date\": \"3/11/2025\"\x7d").2
        = jgetPy [("meeting_date", .jstr "3/11/2025")] "meeting_date" :=
  ⟨rfl, rfl,
    (c5_normalizer_only_in_fallback (fun _ => none) "t"
        "\x7b\"meeting_date\": \"3/11/2025\"\x7d").2
      "\x7b\"meeting_date\": \"3/11/2025\"\x7d"
      [("meeting_date", .jstr "3/11/2025")] rfl rfl⟩

/-- C5 counterexample: the LLM path returns `"3/11/2025"` verbatim even
though the date normalizer maps that string to `"2025-03-11"` — the LLM
path does not pass dates through the normalizer. -/
theorem c5_counterexample :
    (extractCustomerInfo
        (some "\x7b\"customer_name\": \"X\", \"meeting_date\": \"3/11/2025\"\x7d")
        (fun _ => none) "text").2 = some (.jstr "3/11/2025") ∧
    parseAndFormatDate (fun _ => none) "3/11/2025" = some "2025-03-11" ∧
    ("3/11/2025" : String) ≠ "2025-03-11" :=
  ⟨rfl, rfl, by decide⟩

/-- Every extraction attempt yields either a non-error result or exactly
the structured error result — the model of "never raises". -/
theorem processAttempt_shape (o : Option String) (me : String) (c : CategoryDefinition) :
    (processAttempt o me c).error = none ∨ processAttempt o me c = errorResult c.name := by
  cases hv : c.value_type <;> cases o with
  | none =>
    simp [processAttempt, hv]
  | some r =>
    simp only [processAttempt, hv, parseCategoryResponse]
    cases hp : parseValuesConfEv r with
    | none => simp
    | some p =>
      obtain ⟨vs, cf, ev⟩ := p
      exact Or.inl rfl

/-- C8: category extraction is total — for every raw model response (and
for a missing response) it returns either a non-error `CategoryResult` or
the structured error result, never an exception; and the truncated text
`{"values": ["A` is repaired (string closed, brackets and braces padded)
and parses to values `["A"]` with no error. -/
theorem c8_extraction_total_and_repairs :
    (∀ (resp : Nat → Option String) (n : Nat) (me : String) (cat : CategoryDefinition),
      (processCategory resp n me cat).1.error = none ∨
        (processCategory resp n me cat).1 = errorResult cat.name) ∧
    (processCategory (fun _ => some "\x7b\"values\": [\"A") 0 "ep"
        ⟨"Product", none, .predefined, some ["Vector Search", "MLflow"]⟩).1
      = ⟨"Product", ["A"], mkRat 1 2, [], "ep", none⟩ := by
  constructor
  · intro resp n me cat
    unfold processCategory
    simp only []
    split
    · exact processAttempt_shape (resp n) me cat
    · exact processAttempt_shape (resp (n + 1)) me cat
  · rfl

/-- Witness for C6 at a concrete 3-endpoint state with two rate-limited
endpoints and a succeeding third. -/
theorem c6_witness :
    (queryModel
        (fun ep _ =>
          if ep == "eC" then CallOutcome.choices ["the content"]
          else if ep == "eB" then CallOutcome.err "HTTP 429 rate limit hit"
          else CallOutcome.err "REQUEST_LIMIT_EXCEEDED: try later")
        false ⟨[], ["eA", "eB", "eC"], 0, 5, true, true⟩ "p" 500).content
      = some "the content" ∧
    (queryModel
        (fun ep _ =>
          if ep == "eC" then CallOutcome.choices ["the content"]
          else if ep == "eB" then CallOutcome.err "HTTP 429 rate limit hit"
          else CallOutcome.err "REQUEST_LIMIT_EXCEEDED: try later")
        false ⟨[], ["eA", "eB", "eC"], 0, 5, true, true⟩ "p" 500).st.endpoints
      = ["eC", "eB", "eA"] ∧
    (queryModel
        (fun ep _ =>
          if ep == "eC" then CallOutcome.choices ["the content"]
          else if ep == "eB" then CallOutcome.err "HTTP 429 rate limit hit"
          else CallOutcome.err "REQUEST_LIMIT_EXCEEDED: try later")
        false ⟨[], ["eA", "eB", "eC"], 0, 5, true, true⟩ "p" 500).sleeps
      = [10, 20, 10, 20] ∧
    (queryModel
        (fun ep _ =>
          if ep == "eC" then CallOutcome.choices ["the content"]
          else if ep == "eB" then CallOutcome.err "HTTP 429 rate limit hit"
          else CallOutcome.err "REQUEST_LIMIT_EXCEEDED: try later")
        false ⟨[], ["eA", "eB", "eC"], 0, 5, true, true⟩ "p" 500).calls = 7 :=
  c6_failover_promotes _ _ "p" 500 "eA" "eB" "eC"
    "REQUEST_LIMIT_EXCEEDED: try later" "HTTP 429 rate limit hit" "the content" []
    rfl rfl rfl (fun _ => rfl) (by decide) (fun _ => rfl) (by decide) rfl

/-- Witness for C7 at a one-endpoint state that succeeds immediately. -/
theorem c7_witness :
    (queryModel (fun _ _ => CallOutcome.choices ["ans"]) false
        (queryModel (fun _ _ => CallOutcome.choices ["ans"]) false
          ⟨[], ["e"], 0, 5, true, true⟩ "p" 5).st "p" 5).calls = 0 ∧
    (queryModel (fun _ _ => CallOutcome.choices ["ans"]) false
        (queryModel (fun _ _ => CallOutcome.choices ["ans"]) false
          ⟨[], ["e"], 0, 5, true, true⟩ "p" 5).st "p" 5).content = some "ans" ∧
    (queryModel (fun _ _ => CallOutcome.choices ["ans"]) false
        ⟨[], ["e"], 0, 5, true, true⟩ "p" 5).st.cache.length ≤ cacheMaxSize ∧
    (cacheLookup (EngineState.mk [] ["e"] 0 5 true true).cache ("p", 5) = none →
      (EngineState.mk [] ["e"] 0 5 true true).cache.length = cacheMaxSize →
      (queryModel (fun _ _ => CallOutcome.choices ["ans"]) false
          ⟨[], ["e"], 0, 5, true, true⟩ "p" 5).st.cache
        = (EngineState.mk [] ["e"] 0 5 true true).cache.tail ++ [(("p", 5), "ans")]) :=
  c7_cache_dedup_and_bound (fun _ _ => CallOutcome.choices ["ans"])
    ⟨[], ["e"], 0, 5, true, true⟩ "p" 5 "ans" (by decide) rfl

/-- Witness for C10 at a concrete call where the single endpoint times
out and the query returns `None` with the cache untouched. -/
theorem c10_witness :
    (queryModel (fun _ _ => CallOutcome.timeout) false
        ⟨[], ["e"], 0, 5, true, true⟩ "p" 5).content = none ∧
    (queryModel (fun _ _ => CallOutcome.timeout) false
        ⟨[], ["e"], 0, 5, true, true⟩ "p" 5).st.cache
      = ([] : List ((String × Nat) × String)) :=
  ⟨rfl,
    (c10_cache_on_failure (fun _ _ => CallOutcome.timeout)
      ⟨[], ["e"], 0, 5, true, true⟩ "p" 5).1 rfl⟩

end InsightsTracker
